import Mathlib

/-!
Verification of the dialect binding generator (`macro/src/dialect.rs`).

The generator is a build-time function: it configures a TableGen parser with
include directories and source files, parses the schema, locates the requested
dialect record, and emits one module containing typed operation wrappers and,
when the dialect declares at least one operation, a dispatch enum with a
downcast (`try_new`), an upcast (`as_operation`), a `Clone` implementation and
a `Display` implementation.

The embedding below models, from the source:
  * the include-directory resolution and parser configuration of
    `generate_dialect` (dialect.rs lines 30-54);
  * the dialect lookup and its error (lines 56-64);
  * `generate_operation_enum` (lines 69-179): the operation filter, the
    absent-versus-present enum decision, and the runtime semantics of the
    generated `try_new`, `as_operation` and `clone` match arms;
  * `generate_dialect_module` (lines 181-214).

Parts of the repository referenced by dialect.rs but not present under `src/`
(operation.rs, generation.rs, utility.rs, input.rs, and the melior IR handle)
are modelled from the spec; each such definition carries a doc comment that
starts with `Modelled from the spec:`.
-/

namespace ir

/-- Modelled from the spec: the generic IR handle (`melior::ir::operation::Operation`,
an external collaborator per spec section 6) exposing the operation's qualified name and its
ordered operand/result/attribute values. The record value stands for the
underlying operation identity. -/
structure Operation where
  name : String
  operands : List Nat
  results : List Nat
  attributes : List (String × Nat)
deriving DecidableEq, Repr

/-- Modelled from the spec: duplication of a generic handle "reconstructs an
equivalent independent handle sharing the same underlying operation identity
(shallow duplication, not deep copy of IR substructure)" (spec section 4.6), so in
this value model the clone is the same handle value. -/
def Operation.clone (operation : Operation) : Operation :=
  operation

end ir

/-- Modelled from the spec: the per-operation model produced by
`Operation::new` (operation.rs, not under src/): the owning dialect name, the
identifier-safe short name used as the variant identifier, and the qualified
name used for runtime identification (spec section 3). -/
structure Operation where
  dialect_name : String
  name : String
  full_operation_name : String
deriving DecidableEq, Repr

/-- Modelled from the spec: the invocation surface (input.rs, not under src/):
namespace name, schema file list, include-directory list (spec section 6). -/
structure DialectInput where
  name : String
  files : List String
  directories : List String
deriving DecidableEq, Repr

/-- A `Dialect`-derived record as queried by dialect.rs: its TableGen record
name (`Record::name`), its optional `name` string field (`str_value("name")`,
absent = `none`) and its optional `description` field. -/
structure DialectRecord where
  record_name : String
  name : Option String
  description : Option String
deriving DecidableEq, Repr

/-- The parse result (`RecordKeeper`): the `Dialect`-derived records and the
`Op`-derived records, the latter already taken through `Operation::new`. -/
structure RecordKeeper where
  dialects : List DialectRecord
  operations : List Operation
deriving DecidableEq, Repr

/-- The observable configuration state of the TableGen parser built by
`generate_dialect`: the include directories in the order they were added, and
the added source strings. -/
structure TableGenParser where
  include_directories : List String
  sources : List String
deriving DecidableEq, Repr

def add_include_directory (parser : TableGenParser) (directory : String) : TableGenParser :=
  ⟨parser.include_directories ++ [directory], parser.sources⟩

def add_source (parser : TableGenParser) (source : String) : TableGenParser :=
  ⟨parser.include_directories, parser.sources ++ [source]⟩

/-- First component of a path, as `std::path::Path::components().next()`:
`none` for the empty path, the root for an absolute path, `.` and `..`
components, otherwise the first normal component. -/
inductive PathComponent where
  | rootDir
  | curDir
  | parentDir
  | normal (s : String)
deriving DecidableEq, Repr

def firstComponentChars : List Char → List Char
  | [] => []
  | c :: rest => if c = '/' then [] else c :: firstComponentChars rest

def firstComponent (path : String) : Option PathComponent :=
  match path.data with
  | [] => none
  | c :: rest =>
    if c = '/' then some PathComponent.rootDir
    else
      let head := firstComponentChars (c :: rest)
      if head = ['.'] then some PathComponent.curDir
      else if head = ['.', '.'] then some PathComponent.parentDir
      else some (PathComponent.normal (String.mk head))

/-- The test `matches!(Path::new(path).components().next(), Some(Component::CurDir | Component::ParentDir))`
from dialect.rs lines 36-39. -/
def isDotRelative (path : String) : Bool :=
  match firstComponent path with
  | some PathComponent.curDir => true
  | some PathComponent.parentDir => true
  | _ => false

def startsWithSlash (s : String) : Bool :=
  match s.data with
  | c :: _ => c = '/'
  | [] => false

def endsWithSlash (s : String) : Bool :=
  match s.data.getLast? with
  | some c => c = '/'
  | none => false

/-- `Path::new(base).join(path).display().to_string()`: an absolute `path`
replaces `base`; otherwise `path` is appended with a separator when needed. -/
def joinPath (base path : String) : String :=
  if startsWithSlash path then path
  else if base = "" then path
  else if endsWithSlash base then base ++ path
  else base ++ "/" ++ path

/-- The body of the include-directory loop of `generate_dialect` (lines 35-46):
a path whose first component is `.` or `..` is passed verbatim, any other path
is joined under the compiled-in LLVM include directory. -/
def resolveIncludePath (llvm_include_directory path : String) : String :=
  if isDotRelative path then path else joinPath llvm_include_directory path

/-- Parser configuration performed by `generate_dialect` (lines 31-52): the
compiled-in LLVM include directory is added first, then each input directory
after resolution, then one concatenated `include "..."` source string when the
file list is non-empty. -/
def setupParser (llvm_include_directory : String) (input : DialectInput) : TableGenParser :=
  let parser : TableGenParser := ⟨[], []⟩
  let parser := add_include_directory parser llvm_include_directory
  let parser := input.directories.foldl
    (fun parser path => add_include_directory parser (resolveIncludePath llvm_include_directory path))
    parser
  if input.files.length > 0 then
    add_source parser
      (input.files.foldl (fun source path => source ++ "include \"" ++ path ++ "\"") "")
  else
    parser

/-- Splitting on underscores, the character-list counterpart of
`String.splitOn "_"`. -/
def splitUnderscore : List Char → List (List Char)
  | [] => [[]]
  | c :: rest =>
    let chunks := splitUnderscore rest
    if c = '_' then [] :: chunks
    else (c :: chunks.headD []) :: chunks.tail

/-- `convert_case` Pascal casing used for the enum identifier; identifier
casing is an out-of-scope external collaborator (spec section 1), modelled as
capitalising each underscore-separated chunk. -/
def capitalizeChunk (chunk : List Char) : String :=
  match chunk with
  | [] => ""
  | c :: rest => String.mk (c.toUpper :: rest.map Char.toLower)

def toCasePascal (s : String) : String :=
  String.join ((splitUnderscore s.data).map capitalizeChunk)

/-- The generated dispatch enum, as emitted by `generate_operation_enum`: the
enum identifier, one variant identifier per operation, and the qualified names
matched by the generated `try_new`, in declaration order. -/
structure EnumDef where
  enum_name : String
  variants : List String
  match_names : List String
deriving DecidableEq, Repr

/-- `generate_operation_enum` (dialect.rs lines 69-179): the `Op`-derived
operation models are filtered to the dialect, and when the filtered list is
empty no enum is emitted (`Ok(None)`), otherwise one enum with one variant per
operation. -/
def generate_operation_enum (dialect_name : String) (record_keeper : RecordKeeper) :
    Option EnumDef :=
  let operations := record_keeper.operations.filter
    (fun operation => operation.dialect_name = dialect_name)
  if operations.isEmpty then none
  else
    some ⟨toCasePascal dialect_name ++ "Operation",
      operations.map Operation.name,
      operations.map Operation.full_operation_name⟩

/-- A runtime value of the generated dispatch enum: the index of the variant in
declaration order, and the generic handle held by the wrapped typed struct. -/
structure EnumValue where
  variant_index : Nat
  operation : ir.Operation
deriving DecidableEq, Repr

/-- Modelled from the spec: the generated per-operation `try_from`
(generation.rs, not under src/) is "a fallible conversion function from the
generic handle to the typed wrapper, matching on the handle's qualified name
string and rejecting (returning the original handle unchanged, not an error)
on mismatch" (spec section 4.5). -/
def op_try_from (definition : Operation) (operation : ir.Operation) :
    Except ir.Operation ir.Operation :=
  if operation.name = definition.full_operation_name then Except.ok operation
  else Except.error operation

/-- The generated `try_new` match (dialect.rs lines 83-90 and 158-165),
one arm per operation in declaration order: an arm whose qualified name
literal equals the handle's name wraps `try_from(operation.clone())` behind
`.expect(..)`; the wildcard arm returns `Err(operation)`. The outer `Option`
is `none` exactly when the `.expect` panic is reached. -/
def try_new_from (operations : List Operation) (index : Nat) (operation : ir.Operation) :
    Option (Except ir.Operation EnumValue) :=
  match operations with
  | [] => some (Except.error operation)
  | definition :: rest =>
    if operation.name = definition.full_operation_name then
      match op_try_from definition (ir.Operation.clone operation) with
      | Except.ok wrapped => some (Except.ok ⟨index, wrapped⟩)
      | Except.error _ => none
    else
      try_new_from rest (index + 1) operation

def try_new (operations : List Operation) (operation : ir.Operation) :
    Option (Except ir.Operation EnumValue) :=
  try_new_from operations 0 operation

/-- The generated `as_operation` (dialect.rs lines 92-101 and 167-173): every
arm delegates to the wrapper's `as_operation`, which (modelled from the spec,
section 4.6: "a total function from any variant back to the underlying generic
handle, lossless") returns the held handle. -/
def EnumValue.as_operation (value : EnumValue) : ir.Operation :=
  value.operation

/-- The generated `Clone` implementation (dialect.rs lines 103-112 and
144-150): each arm rebuilds the same variant around
`#ident { operation: op.as_operation().clone() }`. -/
def EnumValue.clone (value : EnumValue) : EnumValue :=
  ⟨value.variant_index, ir.Operation.clone (EnumValue.as_operation value)⟩

/-- Modelled from the spec: `sanitize_documentation` (utility.rs, not under
src/); textual documentation sanitization is an out-of-scope external
collaborator (spec section 1), modelled as the identity, returning success. -/
def sanitize_documentation (text : String) : Except String String :=
  Except.ok text

/-- Modelled from the spec: `sanitize_snake_case_identifier` (utility.rs, not
under src/); identifier-casing normalization is an out-of-scope external
collaborator (spec section 1), modelled as the identity, returning success. -/
def sanitize_snake_case_identifier (name : String) : Except String String :=
  Except.ok name

/-- The generated module for one dialect: its doc string, module identifier,
the operation models for which wrappers are generated (in order), and the
optional dispatch enum. -/
structure DialectModule where
  doc : String
  module_name : String
  operations : List Operation
  enum_definition : Option EnumDef
deriving DecidableEq, Repr

/-- `generate_dialect_module` (dialect.rs lines 181-214): filter the operation
models to the dialect record's name, build the doc string
`` `{name}` dialect.\n\n{description} `` with an absent description read as
`""` (`str_value("description").unwrap_or("")`), sanitize the module name, and
attach the optional dispatch enum. -/
def generate_dialect_module (name : String) (dialect : DialectRecord)
    (record_keeper : RecordKeeper) : Except String DialectModule := do
  let dialect_name := dialect.record_name
  let operations := record_keeper.operations.filter
    (fun operation => operation.dialect_name = dialect_name)
  let description ← sanitize_documentation (dialect.description.getD "")
  let doc := "`" ++ name ++ "` dialect.\n\n" ++ description
  let module_name ← sanitize_snake_case_identifier name
  let enum_definition := generate_operation_enum dialect_name record_keeper
  Except.ok ⟨doc, module_name, operations, enum_definition⟩

/-- `generate_dialect` (dialect.rs lines 30-67): configure the parser, parse
(the external TableGen parser is passed in as a function), find the `Dialect`
record whose `name` field equals the input name — failing with the
`create_syn_error("dialect not found")` message otherwise — and generate the
module. -/
def generate_dialect (llvm_include_directory : String)
    (parse : TableGenParser → Except String RecordKeeper)
    (input : DialectInput) : Except String DialectModule := do
  let parser := setupParser llvm_include_directory input
  let keeper ← parse parser
  match keeper.dialects.find? (fun definition => definition.name = some input.name) with
  | none => Except.error "dialect not found"
  | some dialect => generate_dialect_module input.name dialect keeper

/-! ## Helper lemmas about the generated `try_new` match -/

theorem try_new_from_error_iff (operations : List Operation) (index : Nat)
    (operation e : ir.Operation) :
    try_new_from operations index operation = some (Except.error e) ↔
      e = operation ∧ ∀ d ∈ operations, d.full_operation_name ≠ operation.name := by
  induction operations generalizing index with
  | nil =>
    simp only [try_new_from, Option.some.injEq, Except.error.injEq]
    constructor
    · intro h
      exact ⟨h.symm, by simp⟩
    · rintro ⟨h, _⟩
      exact h.symm
  | cons d rest ih =>
    simp only [try_new_from]
    by_cases hname : operation.name = d.full_operation_name
    · rw [if_pos hname]
      simp [op_try_from, ir.Operation.clone, hname]
    · rw [if_neg hname]
      rw [ih (index + 1)]
      simp only [List.mem_cons]
      constructor
      · rintro ⟨he, hall⟩
        exact ⟨he, fun x hx => hx.elim (fun hxd => hxd ▸ fun hc => hname hc.symm) (hall x)⟩
      · rintro ⟨he, hall⟩
        exact ⟨he, fun x hx => hall x (Or.inr hx)⟩

theorem try_new_from_ok (operations : List Operation) (index : Nat)
    (operation : ir.Operation) (value : EnumValue)
    (h : try_new_from operations index operation = some (Except.ok value)) :
    value.operation = operation ∧ index ≤ value.variant_index ∧
      ∃ d, operations.get? (value.variant_index - index) = some d ∧
        d.full_operation_name = operation.name := by
  induction operations generalizing index with
  | nil => simp [try_new_from] at h
  | cons d rest ih =>
    simp only [try_new_from] at h
    by_cases hname : operation.name = d.full_operation_name
    · rw [if_pos hname] at h
      simp only [op_try_from, ir.Operation.clone, if_pos hname, Option.some.injEq,
        Except.ok.injEq] at h
      subst h
      exact ⟨rfl, Nat.le_refl index, d, by simp, hname.symm⟩
    · rw [if_neg hname] at h
      obtain ⟨h1, h2, d2, h3, h4⟩ := ih (index + 1) h
      refine ⟨h1, Nat.le_trans (Nat.le_succ index) h2, d2, ?_, h4⟩
      have hix : value.variant_index - index = (value.variant_index - (index + 1)) + 1 := by
        omega
      rw [hix, List.get?_cons_succ]
      exact h3

theorem try_new_from_isSome (operations : List Operation) (index : Nat)
    (operation : ir.Operation) : (try_new_from operations index operation).isSome := by
  induction operations generalizing index with
  | nil => simp [try_new_from]
  | cons d rest ih =>
    simp only [try_new_from]
    by_cases hname : operation.name = d.full_operation_name
    · rw [if_pos hname]
      simp [op_try_from, ir.Operation.clone, hname]
    · rw [if_neg hname]
      exact ih (index + 1)

/-- Claim C1: for every namespace the generated `try_new` is total: every
input handle either yields exactly one matching variant — whose wrapped
handle is the input and whose variant position names an operation whose
qualified name equals the handle's name — or is returned unchanged in the
error branch, and no input reaches a panic (the `.expect` inside a matched
arm never fires, since the arm's name guard makes the wrapped `try_from`
succeed). -/
theorem try_new_total (operations : List Operation) (operation : ir.Operation) :
    try_new operations operation = some (Except.error operation) ∨
    ∃ value, try_new operations operation = some (Except.ok value) ∧
      value.operation = operation ∧
      ∃ d, operations.get? value.variant_index = some d ∧
        d.full_operation_name = operation.name := by
  have hs := try_new_from_isSome operations 0 operation
  unfold try_new
  cases hr : try_new_from operations 0 operation with
  | none => rw [hr] at hs; simp at hs
  | some r =>
    cases r with
    | error e =>
      left
      have he := (try_new_from_error_iff operations 0 operation e).mp hr
      rw [he.1]
    | ok value =>
      right
      obtain ⟨h1, _, d, h3, h4⟩ := try_new_from_ok operations 0 operation value hr
      exact ⟨value, rfl, h1, d, by simpa using h3, h4⟩

/-- Claim C2: the generated `try_new` returns the error branch carrying the
original handle unchanged, and it does so exactly when no declared
operation's qualified name matches the handle's name. -/
theorem try_new_unmatched (operations : List Operation) (operation : ir.Operation) :
    (try_new operations operation = some (Except.error operation) ↔
      ∀ d ∈ operations, d.full_operation_name ≠ operation.name)
    ∧ ∀ e, try_new operations operation = some (Except.error e) → e = operation := by
  refine ⟨⟨fun h => ?_, fun h => ?_⟩, fun e h => ?_⟩
  · exact ((try_new_from_error_iff operations 0 operation operation).mp h).2
  · exact (try_new_from_error_iff operations 0 operation operation).mpr ⟨rfl, h⟩
  · exact ((try_new_from_error_iff operations 0 operation e).mp h).1

theorem try_new_unmatched_witness :
    try_new [⟨"test", "Add", "test.add"⟩] ⟨"other.mul", [], [], []⟩ =
      some (Except.error ⟨"other.mul", [], [], []⟩) :=
  (try_new_unmatched [⟨"test", "Add", "test.add"⟩] ⟨"other.mul", [], [], []⟩).1.mpr
    (by decide)

/-- Claim C4: when the generated downcast succeeds, the generated upcast
`as_operation` on the resulting variant yields a handle with the same
qualified name and the same operand/result/attribute values as the original
handle. -/
theorem downcast_upcast_roundtrip (operations : List Operation)
    (operation : ir.Operation) (value : EnumValue)
    (h : try_new operations operation = some (Except.ok value)) :
    (EnumValue.as_operation value).name = operation.name ∧
    (EnumValue.as_operation value).operands = operation.operands ∧
    (EnumValue.as_operation value).results = operation.results ∧
    (EnumValue.as_operation value).attributes = operation.attributes := by
  have he := (try_new_from_ok operations 0 operation value h).1
  simp [EnumValue.as_operation, he]

theorem downcast_upcast_roundtrip_witness :
    (EnumValue.as_operation ⟨0, ⟨"test.add", [1, 2], [3], []⟩⟩).name = "test.add" ∧
    (EnumValue.as_operation ⟨0, ⟨"test.add", [1, 2], [3], []⟩⟩).operands = [1, 2] ∧
    (EnumValue.as_operation ⟨0, ⟨"test.add", [1, 2], [3], []⟩⟩).results = [3] ∧
    (EnumValue.as_operation ⟨0, ⟨"test.add", [1, 2], [3], []⟩⟩).attributes = [] :=
  downcast_upcast_roundtrip [⟨"test", "Add", "test.add"⟩] ⟨"test.add", [1, 2], [3], []⟩
    ⟨0, ⟨"test.add", [1, 2], [3], []⟩⟩ rfl

/-- Claim C8: the generated `Clone` implementation rebuilds the same variant
around a shallow duplicate of the held handle, so the clone keeps the variant
and its `as_operation` result equals the original's. -/
theorem clone_preserves_variant_and_operation (value : EnumValue) :
    (EnumValue.clone value).variant_index = value.variant_index ∧
    EnumValue.as_operation (EnumValue.clone value) = EnumValue.as_operation value :=
  ⟨rfl, rfl⟩

/-- Claim C3: `generate_operation_enum` emits nothing exactly when no
`Op`-derived record belongs to the dialect; otherwise it emits one enum with
one variant per operation of the dialect, in order; and the generated module
carries exactly what the enum generator returned. -/
theorem generate_operation_enum_absent_or_full (dialect_name : String)
    (record_keeper : RecordKeeper) :
    (generate_operation_enum dialect_name record_keeper = none ↔
      ∀ operation ∈ record_keeper.operations, operation.dialect_name ≠ dialect_name)
    ∧ (∀ e, generate_operation_enum dialect_name record_keeper = some e →
        e.variants = (record_keeper.operations.filter
          (fun operation => operation.dialect_name = dialect_name)).map Operation.name)
    ∧ ∀ name dialect m, generate_dialect_module name dialect record_keeper = Except.ok m →
        m.enum_definition = generate_operation_enum dialect.record_name record_keeper := by
  refine ⟨?_, fun e he => ?_, fun name dialect m hm => ?_⟩
  · unfold generate_operation_enum
    by_cases hemp : (record_keeper.operations.filter
        (fun operation => operation.dialect_name = dialect_name)).isEmpty
    · rw [if_pos hemp]
      simp only [true_iff]
      rw [List.isEmpty_iff] at hemp
      intro operation hop hdn
      have : operation ∈ record_keeper.operations.filter
          (fun operation => operation.dialect_name = dialect_name) := by
        rw [List.mem_filter]
        exact ⟨hop, by simp [hdn]⟩
      rw [hemp] at this
      exact (List.not_mem_nil operation) this
    · rw [if_neg hemp]
      simp only [reduceCtorEq, false_iff, not_forall]
      rw [List.isEmpty_iff] at hemp
      obtain ⟨operation, hop⟩ := List.exists_mem_of_ne_nil _ hemp
      rw [List.mem_filter] at hop
      exact ⟨operation, hop.1, not_not_intro (by simpa using hop.2)⟩
  · unfold generate_operation_enum at he
    by_cases hemp : (record_keeper.operations.filter
        (fun operation => operation.dialect_name = dialect_name)).isEmpty
    · rw [if_pos hemp] at he
      exact absurd he (by simp)
    · rw [if_neg hemp] at he
      simp only [Option.some.injEq] at he
      rw [← he]
  · unfold generate_dialect_module at hm
    simp only [sanitize_documentation, sanitize_snake_case_identifier, pure, Except.pure,
      bind, Except.bind, Except.ok.injEq] at hm
    rw [← hm]

theorem generate_operation_enum_absent_or_full_witness :
    generate_operation_enum "test" ⟨[], [⟨"other", "Add", "other.add"⟩]⟩ = none ∧
    (EnumDef.mk "TestOperation" ["Add"] ["test.add"]).variants =
      ((RecordKeeper.mk [] [⟨"test", "Add", "test.add"⟩]).operations.filter
        (fun operation => operation.dialect_name = "test")).map Operation.name ∧
    (DialectModule.mk "`test` dialect.\n\n" "test" [⟨"test", "Add", "test.add"⟩]
        (some ⟨"TestOperation", ["Add"], ["test.add"]⟩)).enum_definition =
      generate_operation_enum "test" ⟨[], [⟨"test", "Add", "test.add"⟩]⟩ :=
  ⟨(generate_operation_enum_absent_or_full "test" ⟨[], [⟨"other", "Add", "other.add"⟩]⟩).1.mpr
      (by decide),
    (generate_operation_enum_absent_or_full "test" ⟨[], [⟨"test", "Add", "test.add"⟩]⟩).2.1
      ⟨"TestOperation", ["Add"], ["test.add"]⟩ rfl,
    (generate_operation_enum_absent_or_full "test" ⟨[], [⟨"test", "Add", "test.add"⟩]⟩).2.2
      "test" ⟨"test", some "test", none⟩ _ rfl⟩

/-! ## Helper lemmas about parser configuration -/

theorem foldl_add_include_directories (llvm_include_directory : String)
    (directories : List String) (parser : TableGenParser) :
    (directories.foldl (fun parser path =>
        add_include_directory parser (resolveIncludePath llvm_include_directory path))
      parser).include_directories =
      parser.include_directories ++ directories.map (resolveIncludePath llvm_include_directory) := by
  induction directories generalizing parser with
  | nil => simp
  | cons d rest ih =>
    simp only [List.foldl_cons, List.map_cons]
    rw [ih]
    simp [add_include_directory]

theorem setupParser_include_directories (llvm_include_directory : String)
    (input : DialectInput) :
    (setupParser llvm_include_directory input).include_directories =
      llvm_include_directory ::
        input.directories.map (resolveIncludePath llvm_include_directory) := by
  unfold setupParser
  split
  · simp only [add_source]
    rw [foldl_add_include_directories]
    simp [add_include_directory]
  · rw [foldl_add_include_directories]
    simp [add_include_directory]

/-- Claim C5 (corrected), counterexample: the include-path configuration is
not driven by the three declared inputs alone — two builds differing only in
the compiled-in `LLVM_INCLUDE_DIRECTORY` value configure different include
paths for the same input. -/
theorem llvm_directory_dependence :
    (setupParser "/llvm/a/include" ⟨"dialect", [], ["mlir/IR"]⟩).include_directories ≠
      (setupParser "/llvm/b/include" ⟨"dialect", [], ["mlir/IR"]⟩).include_directories := by
  decide

/-- Claim C5 (amended): the entry point's parser configuration is driven by
the three declared inputs plus the compiled-in LLVM include directory, which
is always added first and under which the non-dot-relative user directories
are joined. -/
theorem generate_dialect_include_configuration (llvm_include_directory : String)
    (input : DialectInput) :
    (setupParser llvm_include_directory input).include_directories =
      llvm_include_directory ::
        input.directories.map (resolveIncludePath llvm_include_directory) :=
  setupParser_include_directories llvm_include_directory input

/-- Claim C10: each input include directory is passed verbatim when its first
path component is `.` or `..` and is otherwise joined under the compiled-in
LLVM include directory; the LLVM include directory itself is always first,
before every user-supplied directory. -/
theorem include_directory_resolution (llvm_include_directory : String)
    (input : DialectInput) (i : Nat) (h : i < input.directories.length) :
    (setupParser llvm_include_directory input).include_directories[0]? =
      some llvm_include_directory ∧
    (setupParser llvm_include_directory input).include_directories[i + 1]? =
      some (if isDotRelative input.directories[i] then input.directories[i]
        else joinPath llvm_include_directory input.directories[i]) := by
  simp only [setupParser_include_directories]
  constructor
  · simp
  · rw [List.getElem?_cons_succ, List.getElem?_map, List.getElem?_eq_getElem h]
    simp [resolveIncludePath]

theorem include_directory_resolution_witness :
    (setupParser "/llvm/include" ⟨"d", [], ["mlir", "./local"]⟩).include_directories[0]? =
      some "/llvm/include" ∧
    (setupParser "/llvm/include" ⟨"d", [], ["mlir", "./local"]⟩).include_directories[1 + 1]? =
      some (if isDotRelative (["mlir", "./local"] : List String)[1]
        then (["mlir", "./local"] : List String)[1]
        else joinPath "/llvm/include" (["mlir", "./local"] : List String)[1]) :=
  include_directory_resolution "/llvm/include" ⟨"d", [], ["mlir", "./local"]⟩ 1 (by decide)

/-- Claim C6 (corrected), counterexample: the namespace-not-found diagnostic
is the constant message `"dialect not found"`: two schemas with different
known dialect names produce the identical message, so the diagnostic does not
list the known namespace names. -/
theorem dialect_not_found_message_constant :
    generate_dialect "/llvm"
        (fun _ => Except.ok ⟨[⟨"Alpha_Dialect", some "alpha", none⟩,
          ⟨"Beta_Dialect", some "beta", none⟩], []⟩)
        ⟨"gamma", [], []⟩ =
      Except.error "dialect not found" ∧
    generate_dialect "/llvm"
        (fun _ => Except.ok ⟨[⟨"Delta_Dialect", some "delta", none⟩], []⟩)
        ⟨"gamma", [], []⟩ =
      Except.error "dialect not found" :=
  ⟨rfl, rfl⟩

/-- Claim C6 (amended): when no `Dialect`-derived record's `name` field equals
the requested namespace, generation fails with the fatal
`"dialect not found"` error (whose message does not list the known namespace
names). -/
theorem dialect_not_found (llvm_include_directory : String)
    (parse : TableGenParser → Except String RecordKeeper)
    (input : DialectInput) (keeper : RecordKeeper)
    (hp : parse (setupParser llvm_include_directory input) = Except.ok keeper)
    (h : ∀ d ∈ keeper.dialects, d.name ≠ some input.name) :
    generate_dialect llvm_include_directory parse input =
      Except.error "dialect not found" := by
  unfold generate_dialect
  simp only [bind, Except.bind, hp]
  have hfind : keeper.dialects.find?
      (fun definition => definition.name = some input.name) = none := by
    rw [List.find?_eq_none]
    intro d hd
    simp [h d hd]
  rw [hfind]

theorem dialect_not_found_witness :
    generate_dialect "/llvm"
        (fun _ => Except.ok ⟨[⟨"Std_Dialect", some "std", none⟩], []⟩)
        ⟨"absent", [], []⟩ =
      Except.error "dialect not found" :=
  dialect_not_found "/llvm" (fun _ => Except.ok ⟨[⟨"Std_Dialect", some "std", none⟩], []⟩)
    ⟨"absent", [], []⟩ ⟨[⟨"Std_Dialect", some "std", none⟩], []⟩ rfl (by decide)

/-- Claim C7: generation is deterministic — two runs on identical inputs
(same compiled-in LLVM directory, same parser, same namespace name, file list
and include directories) yield identical generated output; the function keeps
no run-to-run state. -/
theorem generation_deterministic (llvm1 llvm2 : String)
    (parse1 parse2 : TableGenParser → Except String RecordKeeper)
    (input1 input2 : DialectInput)
    (hl : llvm1 = llvm2) (hp : parse1 = parse2) (hi : input1 = input2) :
    generate_dialect llvm1 parse1 input1 = generate_dialect llvm2 parse2 input2 := by
  rw [hl, hp, hi]

theorem generation_deterministic_witness :
    generate_dialect "/llvm" (fun _ => Except.ok ⟨[], []⟩) ⟨"d", [], []⟩ =
      generate_dialect "/llvm" (fun _ => Except.ok ⟨[], []⟩) ⟨"d", [], []⟩ :=
  generation_deterministic "/llvm" "/llvm" (fun _ => Except.ok ⟨[], []⟩)
    (fun _ => Except.ok ⟨[], []⟩) ⟨"d", [], []⟩ ⟨"d", [], []⟩ rfl rfl rfl

/-- Claim C9: a dialect record with an absent `description` field is treated
as having an empty description — generation proceeds and emits the header doc
with an empty description rather than aborting. -/
theorem absent_description_not_fatal (name : String) (dialect : DialectRecord)
    (record_keeper : RecordKeeper) (h : dialect.description = none) :
    generate_dialect_module name dialect record_keeper =
      Except.ok ⟨"`" ++ name ++ "` dialect.\n\n", name,
        record_keeper.operations.filter
          (fun operation => operation.dialect_name = dialect.record_name),
        generate_operation_enum dialect.record_name record_keeper⟩ := by
  unfold generate_dialect_module
  simp only [h, Option.getD, sanitize_documentation, sanitize_snake_case_identifier,
    bind, Except.bind, pure, Except.pure, Except.ok.injEq]
  congr 1
  have : ("`" ++ name ++ "` dialect.\n\n" ++ "") = "`" ++ name ++ "` dialect.\n\n" := by
    apply String.ext
    simp [String.data_append]
  rw [this]

theorem absent_description_not_fatal_witness :
    generate_dialect_module "test" ⟨"Test_Dialect", some "test", none⟩ ⟨[], []⟩ =
      Except.ok ⟨"`" ++ "test" ++ "` dialect.\n\n", "test",
        (RecordKeeper.mk [] []).operations.filter
          (fun operation => operation.dialect_name = "Test_Dialect"),
        generate_operation_enum "Test_Dialect" ⟨[], []⟩⟩ :=
  absent_description_not_fatal "test" ⟨"Test_Dialect", some "test", none⟩ ⟨[], []⟩ rfl
